import Mathlib

/-!
Verification of the visidata session engine (`src/visidata/mainloop.py`)
against its natural-language specification.

The Python module is shallowly embedded: the mutable VisiData session state
becomes an explicit record (`VD`), each segment of the `mainloop` body becomes
a pure Lean function over that record, exceptions become `Option String`
values threaded through the error history, and the external collaborators
(binding table, mouse table, sheet stacks, background-thread registry) become
parameters collected in `Env`.
-/

namespace VisiDataMain

/-- Python's substring test `needle in haystack` on strings. -/
def pyIn (needle haystack : String) : Bool :=
  decide (needle.toList <:+: haystack.toList)

/-- Python's `s.endswith(suffix)`; used only to state claims about escape
tokens at the end of a pending sequence. -/
def endsIn (suffix s : String) : Bool :=
  suffix.toList.isSuffixOf s.toList

/-- Modelled from the spec: the escape token `ESC` imported by the module
(`from visidata import ... ESC`); its definition is outside `src/`.  The spec
calls it "an escape token"; visidata renders it as the two-character notation
for the escape key. -/
def ESC : String := "^["

/-- `vd.curses_timeout = 100`: curses timeout in ms (mainloop.py line 11). -/
def curses_timeout : Int := 100

/-- `desiredConfig` built in `setWindows` (mainloop.py lines 52-56):
`h, w = scr.getmaxyx(); n = abs(pct)*h//100;
desiredConfig = dict(pct=pct, n=n, h=h, w=w)`.
This is the spec's `computeLayout`: `n` is the split line. -/
structure PaneConfig where
  pct : Int
  n : Nat
  h : Nat
  w : Nat
deriving DecidableEq, Repr

def desiredConfig (pct : Int) (h w : Nat) : PaneConfig :=
  { pct := pct, n := pct.natAbs * h / 100, h := h, w := w }

/-- A curses window handle.  `real` records the `curses.newwin(nlines, ncols,
begin_y, begin_x)` arguments; `absent` is the
`mock.MagicMock(__bool__=False)` placeholder used when there is no second
pane (mainloop.py line 66). -/
inductive WinHandle where
  | real (nlines ncols beginY beginX : Nat)
  | absent
deriving DecidableEq, Repr

/-- `bool(win)`: the MagicMock is constructed with `__bool__` returning
`False`; real curses windows are truthy. -/
def WinHandle.toBool : WinHandle → Bool
  | .absent => false
  | .real _ _ _ _ => true

/-- Result of a curses drawing call. -/
inductive CursesResult where
  | ok
  | err (msg : String)
deriving DecidableEq, Repr

/-- `win.erase()`: a no-op on the absent (MagicMock) handle; on a real window
it can fail when the window has zero lines ("drawing to 0-line window causes
problems", mainloop.py line 65). -/
def WinHandle.erase : WinHandle → CursesResult
  | .absent => .ok
  | .real nlines _ _ _ => if nlines = 0 then .err "curses" else .ok

/-- `win.refresh()`: same device model as `erase`. -/
def WinHandle.refresh : WinHandle → CursesResult
  | .absent => .ok
  | .real nlines _ _ _ => if nlines = 0 then .err "curses" else .ok

/-- Drawing view content onto a window handle: same device model. -/
def WinHandle.drawOn : WinHandle → CursesResult
  | .absent => .ok
  | .real nlines _ _ _ => if nlines = 0 then .err "curses" else .ok

/-- The four window attributes assigned by `setWindows`
(mainloop.py lines 59-72). -/
structure Windows where
  winTop : WinHandle
  winBottom : WinHandle
  win1 : WinHandle
  win2 : WinHandle
deriving DecidableEq, Repr

/-- Window assignment of `setWindows` for a given config (lines 59-72):
`winTop = newwin(n, w, 0, 0)`, `winBottom = newwin(h-n, w, n, 0)`;
`pct == 0 or pct >= 100` gives a single pane with an absent `win2`;
`pct > 0` puts pane 2 at the bottom, `pct < 0` puts pane 2 at the top. -/
def assignWindows (cfg : PaneConfig) : Windows :=
  let top := WinHandle.real cfg.n cfg.w 0 0
  let bottom := WinHandle.real (cfg.h - cfg.n) cfg.w cfg.n 0
  if cfg.pct = 0 ∨ cfg.pct ≥ 100 then
    { winTop := top, winBottom := bottom, win1 := bottom, win2 := .absent }
  else if cfg.pct > 0 then
    { winTop := top, winBottom := bottom, win1 := top, win2 := bottom }
  else
    { winTop := top, winBottom := bottom, win1 := bottom, win2 := top }

/-- The window-related session state: `vd.windowConfig` (initially `None`,
line 44) and the window handles. -/
structure WinState where
  windowConfig : Option PaneConfig
  wins : Windows
deriving DecidableEq, Repr

/-- `VisiData.setWindows` (mainloop.py lines 47-79): recompute the desired
config; recreate the windows only when the screen identity changed
(`vd.scrFull is not scr`, modelled by `scrChanged`) or the stored config
differs; returns `true` exactly when the handles were recreated (the source
then sends `refresh()` to the top sheet of each stack and returns `True`). -/
def setWindows (ws : WinState) (scrChanged : Bool) (pct : Int) (h w : Nat) :
    WinState × Bool :=
  let desired := desiredConfig pct h w
  if scrChanged ∨ ws.windowConfig ≠ some desired then
    ({ windowConfig := some desired, wins := assignWindows desired }, true)
  else
    (ws, false)

/-- The window handles stored in a `WinState` agree with its stored config.
Holds vacuously before the first `setWindows` call (config `None`) and is
preserved by `setWindows`. -/
def WinState.consistent (ws : WinState) : Prop :=
  ∀ cfg, ws.windowConfig = some cfg → ws.wins = assignWindows cfg

/-- Modelled from the spec: `vd.exceptionCaught` (outside `src/`) records an
exception "to a bounded history": the error text is appended to the rolling
`lastErrors` list, keeping only the most recent ten entries. -/
def exceptionCaught (hist : List String) (e : String) : List String :=
  (hist ++ [e]).drop (hist.length + 1 - 10)

/-- Modelled from the spec: `Sheet.execCommand` (outside `src/`) runs the
command bound to a keystroke sequence; a failure raised while executing it is
"caught at the Scheduler boundary, recorded into a bounded rolling error
history", never propagated.  `exc` is the exception the command raises, if
any. -/
def execCommand (hist : List String) (exc : Option String) : List String :=
  match exc with
  | none => hist
  | some e => exceptionCaught hist e

/-- How a mouse keystroke token is bound, as returned by `vd.getMouse`
(mainloop.py line 190): unbound, a whitespace-separated command string (each
word executed via `execCommand`, line 193-194), or a callable invoked as
`f(y, x, keystroke)` (line 196). -/
inductive MouseBinding where
  | unbound
  | cmds (cs : List String)
  | fn
deriving DecidableEq, Repr

/-- The external collaborators of one loop iteration: sheet stacks, replay
flag, terminal size, binding table (`vd.bindkeys._get`), prefix set
(`vd.allPrefixes`), background-thread registry, idle threshold, mouse
tables, and the exception behavior of the external view/command code. -/
structure Env where
  ss1 : List Nat
  ss2 : List Nat
  currentReplay : Bool
  h : Nat
  w : Nat
  bindkeysGet : String → Option String
  allPrefixes : List String
  unfinishedThreads : Bool
  timeouts_before_idle : Int
  getMouse : String → MouseBinding
  mouseEvents : Nat → Option String
  execExc : String → Option String
  drawExc : Nat → Option String

/-- The mutable session state threaded through `mainloop` iterations:
`self.keystrokes`, `prefixWaiting`, `numTimeouts`, the current
`scr.timeout` value, `vd._nextCommands`, `vd.lastErrors`, `vd.statuses`,
`vd.activePane`, `options.disp_splitwin_pct`, and the window state. -/
structure VD where
  keystrokes : String
  prefixWaiting : Bool
  numTimeouts : Nat
  timeoutMs : Int
  nextCommands : List String
  lastErrors : List String
  statuses : List String
  activePane : Nat
  disp_splitwin_pct : Int
  winState : WinState
deriving DecidableEq, Repr

/-- Observable side effects of one loop iteration: which (window, sheet)
pairs were drawn, which windows erased/refreshed, which sheets were sent
`refresh()`, each `execCommand` invocation, mouse-handler calls
`f(y, x, keystroke)`, warnings, whether live input was read, and the
`sheet.mouseX/mouseY` assignment. -/
structure Effects where
  draws : List (WinHandle × Nat)
  erases : List WinHandle
  refreshes : List WinHandle
  sheetRefreshes : List Nat
  execs : List String
  mouseFnCalls : List (Nat × Nat × String)
  warnings : List String
  readInput : Bool
  sheetMouse : Option (Nat × Nat)
deriving DecidableEq, Repr

def Effects.empty : Effects :=
  ⟨[], [], [], [], [], [], [], false, none⟩

def Effects.append (a b : Effects) : Effects :=
  ⟨a.draws ++ b.draws, a.erases ++ b.erases, a.refreshes ++ b.refreshes,
   a.sheetRefreshes ++ b.sheetRefreshes, a.execs ++ b.execs,
   a.mouseFnCalls ++ b.mouseFnCalls, a.warnings ++ b.warnings,
   a.readInput || b.readInput, a.sheetMouse <|> b.sheetMouse⟩

/-- `VisiData.draw_sheet` (mainloop.py lines 23-41): erase the window, draw
the status bars, draw the sheet catching any exception via
`exceptionCaught`, then refresh the window.  Returns the updated error
history; the exception raised by the external `sheet.draw` is `env.drawExc
sheet`. -/
def draw_sheet (env : Env) (scr : WinHandle) (sheet : Nat)
    (lastErrors : List String) : List String × Effects :=
  let errs :=
    match env.drawExc sheet with
    | none => lastErrors
    | some e => exceptionCaught lastErrors e
  (errs, { Effects.empty with
             draws := [(scr, sheet)]
             erases := [scr]
             refreshes := [scr] })

/-- `vd.setWindows(scr)` as invoked from the loop: reads
`options.disp_splitwin_pct` and the screen size; on recreation the top sheet
of each stack receives `refresh()` (mainloop.py lines 74-75).  The screen
identity never changes inside `mainloop` (`vd.scrFull = scr`, line 128). -/
def setWindowsVD (env : Env) (st : VD) : VD × Effects :=
  let res := setWindows st.winState false st.disp_splitwin_pct env.h env.w
  ({ st with winState := res.1 },
   { Effects.empty with
     sheetRefreshes := if res.2 then env.ss1.take 1 ++ env.ss2.take 1 else [] })

/-- `VisiData.draw_all` (mainloop.py lines 81-107).  With exactly one
non-empty stack that pane becomes active, its top sheet's
`disp_splitwin_pct` option is forced to 0, the layout is re-applied, the top
sheet is drawn on `win1`, and `win2` — if truthy — is erased and refreshed.
With both stacks non-empty and a truthy `win2`, both tops are drawn; with an
absent `win2`, only the active pane's top is drawn and the layout
re-applied. -/
def draw_all (env : Env) (st : VD) : VD × Effects :=
  match env.ss1, env.ss2 with
  | s1 :: _, [] =>
      let st1 := { st with activePane := 1, disp_splitwin_pct := 0 }
      let r1 := setWindowsVD env st1
      let r2 := draw_sheet env r1.1.winState.wins.win1 s1 r1.1.lastErrors
      let st2 := { r1.1 with lastErrors := r2.1 }
      let e3 :=
        if st2.winState.wins.win2.toBool then
          { Effects.empty with
              erases := [st2.winState.wins.win2]
              refreshes := [st2.winState.wins.win2] }
        else Effects.empty
      (st2, (r1.2.append r2.2).append e3)
  | [], s2 :: _ =>
      let st1 := { st with activePane := 2, disp_splitwin_pct := 0 }
      let r1 := setWindowsVD env st1
      let r2 := draw_sheet env r1.1.winState.wins.win1 s2 r1.1.lastErrors
      let st2 := { r1.1 with lastErrors := r2.1 }
      let e3 :=
        if st2.winState.wins.win2.toBool then
          { Effects.empty with
              erases := [st2.winState.wins.win2]
              refreshes := [st2.winState.wins.win2] }
        else Effects.empty
      (st2, (r1.2.append r2.2).append e3)
  | s1 :: _, s2 :: _ =>
      if st.winState.wins.win2.toBool then
        let r1 := draw_sheet env st.winState.wins.win1 s1 st.lastErrors
        let r2 := draw_sheet env st.winState.wins.win2 s2 r1.1
        ({ st with lastErrors := r2.1 }, r1.2.append r2.2)
      else
        let r1 := draw_sheet env st.winState.wins.win1
          (if st.activePane = 2 then s2 else s1) st.lastErrors
        let st1 := { st with lastErrors := r1.1 }
        let r2 := setWindowsVD env st1
        (r2.1, r1.2.append r2.2)
  | [], [] => (st, Effects.empty)

/-- The data `curses.getmouse()` reports for a `KEY_MOUSE` event: position,
the modifier bits (`BUTTON_CTRL` / `BUTTON_ALT` / `BUTTON_SHIFT`, already
separated from the remaining button-state bits), and whether `getmouse`
itself raised `curses.error` (it does when no mouse event is queued). -/
structure MouseData where
  x : Nat
  y : Nat
  ctrl : Bool
  alt : Bool
  shift : Bool
  button : Nat
  cursesErr : Bool
deriving DecidableEq, Repr

/-- What `self.getkeystroke(scr, sheet)` returned: a pure timeout (empty
string), an ordinary keystroke, or `KEY_MOUSE` with its queued mouse data. -/
inductive InputEvent where
  | timeout
  | key (k : String)
  | mouse (m : MouseData)
deriving DecidableEq, Repr

def InputEvent.mouseData : InputEvent → MouseData
  | .mouse m => m
  | _ => ⟨0, 0, false, false, false, 0, true⟩

def InputEvent.keystroke : InputEvent → String
  | .timeout => ""
  | .key k => k
  | .mouse _ => "KEY_MOUSE"

/-- The `clicktype` string composed on mainloop.py lines 178-186: `CTRL-`,
then `ALT-`, then `SHIFT-`, each appended while its modifier bit is set. -/
def clicktype (m : MouseData) : String :=
  (if m.ctrl then "CTRL-" else "") ++ (if m.alt then "ALT-" else "") ++
    (if m.shift then "SHIFT-" else "")

/-- The composed mouse keystroke token (line 188):
`clicktype + curses.mouseEvents.get(bstate, str(bstate))`. -/
def mouseKeystroke (env : Env) (m : MouseData) : String :=
  clicktype m ++
    (match env.mouseEvents m.button with
     | some s => s
     | none => toString m.button)

/-- Result of the `KEY_MOUSE` block (lines 163-203): the value of the local
`keystroke` variable afterwards, the updated state, and the effects. -/
structure MouseOut where
  keystroke : String
  st : VD
  eff : Effects
deriving Repr

/-- Resolution of the mouse (x, y) position against the pane layout
(mainloop.py lines 169-177): which `sheet.mouseX, sheet.mouseY` assignment
happens, if any. -/
def mouseSheetPos (activePane : Nat) (cfg : PaneConfig) (m : MouseData) :
    Option (Nat × Nat) :=
  let pct := cfg.pct
  let topPaneActive :=
    (activePane = 1 ∧ pct < 0) ∨ (activePane = 2 ∧ pct > 0)
  let bottomPaneActive :=
    (activePane = 2 ∧ pct < 0) ∨ (activePane = 1 ∧ pct > 0)
  if m.y > cfg.n ∧ topPaneActive then some (m.x, m.y - cfg.n)
  else if m.y < cfg.n ∧ bottomPaneActive then some (m.x, m.y)
  else if pct = 0 then some (m.x, m.y)
  else none

/-- The `KEY_MOUSE` branch of `mainloop` (lines 163-203).  `self.keystrokes`
is first cleared (line 164).  If `getmouse` raises `curses.error` the whole
block is skipped (`except curses.error: pass`) and `keystroke` remains
`KEY_MOUSE`.  If `vd.windowConfig` is still `None`, subscripting it raises
and `except Exception` records the error.  Otherwise the (x, y) position is
resolved against the pane layout, the composed token is built, and a bound
mouse handler — a command string or a callable — is invoked, after which
`self.keystrokes` is set to the composed token and `keystroke` becomes
the empty string. -/
def handleMouse (env : Env) (st0 : VD) (m : MouseData) : MouseOut :=
  let st := { st0 with keystrokes := "" }
  if m.cursesErr then
    ⟨"KEY_MOUSE", st, Effects.empty⟩
  else
    match st.winState.windowConfig with
    | none =>
        ⟨"KEY_MOUSE",
         { st with lastErrors := exceptionCaught st.lastErrors "TypeError" },
         Effects.empty⟩
    | some cfg =>
        let sheetMouse := mouseSheetPos st.activePane cfg m
        let tok := mouseKeystroke env m
        match env.getMouse tok with
        | .unbound =>
            ⟨tok, st, { Effects.empty with sheetMouse := sheetMouse }⟩
        | .cmds cs =>
            let errs := cs.foldl
              (fun acc c => execCommand acc (env.execExc c)) st.lastErrors
            ⟨"", { st with keystrokes := tok, lastErrors := errs },
             { Effects.empty with execs := cs, sheetMouse := sheetMouse }⟩
        | .fn =>
            ⟨"", { st with keystrokes := tok },
             { Effects.empty with
                 mouseFnCalls := [(m.y, m.x, tok)]
                 sheetMouse := sheetMouse }⟩

/-- End-of-iteration poll-timeout adjustment (mainloop.py lines 229-238):
short timeout while any background thread is unfinished; otherwise
`numTimeouts` is incremented and the read blocks indefinitely (`timeout(-1)`)
once it exceeds `vd.timeouts_before_idle` (when that threshold is
non-negative). -/
def timeoutUpdate (env : Env) (st : VD) : VD :=
  if env.unfinishedThreads then { st with timeoutMs := curses_timeout }
  else
    let nt := st.numTimeouts + 1
    if 0 ≤ env.timeouts_before_idle ∧ (nt : Int) > env.timeouts_before_idle then
      { st with numTimeouts := nt, timeoutMs := -1 }
    else
      { st with numTimeouts := nt, timeoutMs := curses_timeout }

/-- Outcome of the input half of one iteration: either `mainloop` returned
(`^Q` path, line 215-216) or the loop proceeds with an updated state. -/
inductive StepResult where
  | ret (err : Option String) (eff : Effects)
  | next (st : VD) (eff : Effects)
deriving Repr

def StepResult.nextState : StepResult → Option VD
  | .next st _ => some st
  | .ret _ _ => none

def StepResult.effects : StepResult → Effects
  | .next _ eff => eff
  | .ret _ eff => eff

/-- The keystroke-resolution tail of the iteration (mainloop.py lines
211-238): with an empty `keystroke` nothing is resolved; `^Q` returns the
last recorded error; an exact binding for the accumulated `self.keystrokes`
dispatches it with `prefixWaiting = False`; a keystroke in `vd.allPrefixes`
sets `prefixWaiting`; otherwise a "no command" status is reported.  Every
non-returning branch ends in the timeout adjustment. -/
def resolveKeystroke (env : Env) (st : VD) (keystroke : String)
    (eff : Effects) : StepResult :=
  if keystroke = "" then
    .next (timeoutUpdate env st) eff
  else if keystroke = "^Q" then
    .ret (if st.lastErrors = [] then none else st.lastErrors.getLast?) eff
  else if (env.bindkeysGet st.keystrokes).isSome then
    .next (timeoutUpdate env
      { st with
          lastErrors := execCommand st.lastErrors (env.execExc st.keystrokes)
          prefixWaiting := false })
      (eff.append { Effects.empty with execs := [st.keystrokes] })
  else if keystroke ∈ env.allPrefixes then
    .next (timeoutUpdate env { st with prefixWaiting := true }) eff
  else
    .next (timeoutUpdate env
      { st with
          prefixWaiting := false
          statuses :=
            st.statuses ++ ["no command for \"" ++ st.keystrokes ++ "\""] })
      eff

/-- The input half of one `mainloop` iteration (lines 151-238), applied to
the event `getkeystroke` returned.  Line 153-154: a pure timeout while
`prefixWaiting` clears `self.keystrokes` when it contains the escape token.
Lines 156-209: a real keystroke resets `numTimeouts`, clears
`self.keystrokes` unless a prefix is pending, clears the statuses, runs the
`KEY_MOUSE` block if applicable, and then either reports a duplicate prefix
(the keystroke occurs in `self.keystrokes[:-1]`) or appends the keystroke.
Lines 211-238 are `resolveKeystroke`. -/
def mainloopInput (env : Env) (st0 : VD) (input : InputEvent) : StepResult :=
  let keystroke := input.keystroke
  let st1 :=
    if keystroke = "" ∧ st0.prefixWaiting = true ∧ pyIn ESC st0.keystrokes = true
    then { st0 with keystrokes := "" } else st0
  if keystroke = "" then
    resolveKeystroke env st1 keystroke Effects.empty
  else
    let st2 := { st1 with numTimeouts := 0 }
    let st3 :=
      if st2.prefixWaiting then st2 else { st2 with keystrokes := "" }
    let st4 := { st3 with statuses := [] }
    let mo :=
      if keystroke = "KEY_MOUSE" then handleMouse env st4 input.mouseData
      else ⟨keystroke, st4, Effects.empty⟩
    let dup :=
      if pyIn mo.keystroke (mo.st.keystrokes.dropRight 1) then
        MouseOut.mk mo.keystroke { mo.st with keystrokes := "" }
          (mo.eff.append { Effects.empty with warnings := ["duplicate prefix"] })
      else
        MouseOut.mk mo.keystroke
          { mo.st with keystrokes := mo.st.keystrokes ++ mo.keystroke } mo.eff
    resolveKeystroke env dup.st dup.keystroke dup.eff

/-- Outcome of the pre-input phase of one iteration (mainloop.py lines
131-149): `mainloop` returned (line 132-133), there is no active sheet
(`continue`, line 137-138), a replay command was drained (`continue`, lines
147-149), or the iteration proceeds to `getkeystroke`. -/
inductive PreResult where
  | ret (err : Option String)
  | noSheet (st : VD)
  | replayed (st : VD) (eff : Effects)
  | needInput (st : VD) (eff : Effects)
deriving Repr

/-- Modelled from the spec: `vd.activeSheet` (outside `src/`) resolves the
active view — the top of the active pane's stack, else the top of the other
stack, else nothing ("the active pane is always one for which a non-empty
view stack exists, unless both stacks are empty"). -/
def activeSheet (env : Env) (st : VD) : Option Nat :=
  match (if st.activePane = 2 then env.ss2 else env.ss1) with
  | s :: _ => some s
  | [] =>
      match (if st.activePane = 2 then env.ss1 else env.ss2) with
      | s :: _ => some s
      | [] => none

/-- The pre-input phase of one `mainloop` iteration (lines 131-149):
terminate once no sheets are stacked and no replay is in progress; skip the
iteration when there is no active sheet; apply the layout and redraw
everything; then drain exactly one replay command if `vd._nextCommands` is
non-empty (skipping `getkeystroke` for this iteration), else proceed to the
input read. -/
def mainloopPre (env : Env) (st : VD) : PreResult :=
  if env.ss1 = [] ∧ env.ss2 = [] ∧ env.currentReplay = false then
    .ret none
  else
    match activeSheet env st with
    | none => .noSheet st
    | some _ =>
        let r1 := setWindowsVD env st
        let r2 := draw_all env r1.1
        let eff := r1.2.append r2.2
        match r2.1.nextCommands with
        | cmd :: rest =>
            .replayed
              { r2.1 with
                  nextCommands := rest
                  lastErrors := execCommand r2.1.lastErrors (env.execExc cmd) }
              (eff.append { Effects.empty with execs := [cmd] })
        | [] => .needInput r2.1 eff

/-- One full `mainloop` iteration: the pre-input phase, then — only when the
iteration reaches `getkeystroke` — the input half on the supplied event.
Reading live input is recorded in the effects. -/
def mainloopStep (env : Env) (st : VD) (input : InputEvent) : StepResult :=
  match mainloopPre env st with
  | .ret e => .ret e Effects.empty
  | .noSheet st1 => .next st1 Effects.empty
  | .replayed st1 eff => .next st1 eff
  | .needInput st1 eff =>
      match mainloopInput env st1 input with
      | .ret e eff2 => .ret e (eff.append eff2)
      | .next st2 eff2 =>
          .next st2 (eff.append { eff2 with readInput := true })

/-- Run successive loop iterations, consuming one input event per iteration
(faithful to the source whenever each iteration's pre-input phase reaches
`getkeystroke`, which holds in every scenario below: sheets stacked, no
replay queue).  Returns the final state and the per-iteration effects. -/
def runInputs (env : Env) (st : VD) : List InputEvent → VD × List Effects
  | [] => (st, [])
  | input :: rest =>
      match mainloopStep env st input with
      | .ret _ eff => (st, [eff])
      | .next st1 eff =>
          let r := runInputs env st1 rest
          (r.1, eff :: r.2)

/-- The session state on entry to `mainloop` (lines 122-130): timeout set to
`vd.curses_timeout`, `numTimeouts = 0`, `prefixWaiting = False`,
`self.keystrokes = ''`, no queued replay commands, no recorded errors, and
the fresh window state (`vd.windowConfig = None`; the handles are
placeholders recreated by the first `setWindows` call). -/
def initVD : VD :=
  { keystrokes := ""
    prefixWaiting := false
    numTimeouts := 0
    timeoutMs := curses_timeout
    nextCommands := []
    lastErrors := []
    statuses := []
    activePane := 1
    disp_splitwin_pct := 0
    winState := ⟨none, ⟨.absent, .absent, .absent, .absent⟩⟩ }

/-- The scenario environment of the claims about keystroke resolution: one
sheet on pane 1, binding table `a ↦ CMD1`, `ab ↦ CMD2` (so the prefix set
supplied by the external binding source is `[a]`), no background threads,
default idle threshold, no mouse bindings, and external code that never
raises. -/
def envAB : Env :=
  { ss1 := [0]
    ss2 := []
    currentReplay := false
    h := 24
    w := 80
    bindkeysGet := fun s =>
      if s = "a" then some "CMD1" else if s = "ab" then some "CMD2" else none
    allPrefixes := ["a"]
    unfinishedThreads := false
    timeouts_before_idle := 10
    getMouse := fun _ => .unbound
    mouseEvents := fun _ => none
    execExc := fun _ => none
    drawExc := fun _ => none }

/-- The value of `self.keystrokes` after the start-of-keystroke handling
(mainloop.py lines 158-159): cleared unless a prefix is pending. -/
def keystrokesAfterClear (st : VD) : String :=
  if st.prefixWaiting then st.keystrokes else ""

/-- Environment with one mouse binding: button-state 4 maps to the token
`BUTTON1_CLICKED`, bound to the single command word `open-row`. -/
def envMouse : Env :=
  { envAB with
      getMouse := fun s =>
        if s = "BUTTON1_CLICKED" then .cmds ["open-row"] else .unbound
      mouseEvents := fun b =>
        if b = 4 then some "BUTTON1_CLICKED" else none }

/-- Session state mid-loop: the layout for a 24×80 single-pane screen has
been applied, so `vd.windowConfig` is populated. -/
def stMouse : VD :=
  { initVD with
      winState :=
        ⟨some (desiredConfig 0 24 80), assignWindows (desiredConfig 0 24 80)⟩ }

/-- Environment in which the command bound to `a` raises the exception
`boom` when executed. -/
def envRaise : Env :=
  { envAB with execExc := fun s => if s = "a" then some "boom" else none }

/-- The one-sheet environment with idle threshold `T`
(`vd.timeouts_before_idle`). -/
def envIdle (T : Int) : Env :=
  { envAB with timeouts_before_idle := T }

theorem setWindows_config (ws : WinState) (sc : Bool) (pct : Int) (h w : Nat) :
    (setWindows ws sc pct h w).1.windowConfig = some (desiredConfig pct h w) := by
  simp only [setWindows]
  split
  · rfl
  · rename_i hcond
    push_neg at hcond
    exact hcond.2

theorem setWindows_consistent (ws : WinState) (sc : Bool) (pct : Int) (h w : Nat)
    (hc : ws.consistent) : (setWindows ws sc pct h w).1.consistent := by
  simp only [setWindows]
  split
  · intro cfg hcfg
    simp only [Option.some.injEq] at hcfg
    simp [← hcfg]
  · exact hc

theorem mem_exceptionCaught (hist : List String) (e : String) :
    e ∈ exceptionCaught hist e := by
  unfold exceptionCaught
  have hle : hist.length + 1 - 10 ≤ hist.length := by omega
  rw [List.drop_append_of_le_length hle]
  exact List.mem_append_right _ (List.mem_singleton.2 rfl)

/-- C4 counterexample: the claim asserts `splitLine <= totalHeight` for
*every* signed split percentage, but `n = abs(pct)*h//100` exceeds the
terminal height as soon as `|pct| > 100`: at `pct = 200`, `h = 10`, `w = 80`
the computed split line is `20 > 10`. -/
theorem C4_counterexample :
    (desiredConfig 200 10 80).n = 20 ∧ ¬((desiredConfig 200 10 80).n ≤ 10) := by
  decide

/-- C4 (amended): the layout is a pure deterministic function of
`(splitPercent, height, width)` — two calls with identical inputs give an
identical `PaneConfig` — the split line equals `|splitPercent| * totalHeight
/ 100` with integer division, `0 <= splitLine` always, and
`splitLine <= totalHeight` holds whenever `|splitPercent| <= 100` (the code
does not clamp percentages above 100). -/
theorem C4_layout (pct : Int) (h w : Nat) :
    desiredConfig pct h w = desiredConfig pct h w ∧
    (desiredConfig pct h w).n = pct.natAbs * h / 100 ∧
    0 ≤ (desiredConfig pct h w).n ∧
    (pct.natAbs ≤ 100 → (desiredConfig pct h w).n ≤ h) := by
  refine ⟨rfl, rfl, Nat.zero_le _, fun hle => ?_⟩
  calc pct.natAbs * h / 100 ≤ 100 * h / 100 :=
        Nat.div_le_div_right (Nat.mul_le_mul_right h hle)
    _ = h := Nat.mul_div_cancel_left h (by norm_num)

/-- C4 witness: the amended bound evaluated at `pct = 25`, `h = 100`,
`w = 80`. -/
theorem C4_layout_witness :
    (desiredConfig 25 100 80).n = 25 ∧ (desiredConfig 25 100 80).n ≤ 100 :=
  ⟨by decide, (C4_layout 25 100 80).2.2.2 (by decide)⟩

/-- C9: for every split percentage equal to 0 or at least 100, applying the
layout (`setWindows`, lines 63-66) yields the absent (MagicMock) secondary
handle, and every drawing operation on the absent handle — erase, refresh,
draw — is a no-op that never errors.  The consistency hypothesis says the
stored handles match the stored config (vacuously true at session start,
preserved by `setWindows`). -/
theorem C9_absent_secondary (ws : WinState) (sc : Bool) (pct : Int) (h w : Nat)
    (hc : ws.consistent) (hp : pct = 0 ∨ 100 ≤ pct) :
    (setWindows ws sc pct h w).1.wins.win2 = .absent ∧
    WinHandle.erase .absent = .ok ∧
    WinHandle.refresh .absent = .ok ∧
    WinHandle.drawOn .absent = .ok := by
  refine ⟨?_, rfl, rfl, rfl⟩
  have hcfg := setWindows_config ws sc pct h w
  have hcons := setWindows_consistent ws sc pct h w hc
  have hwins := hcons _ hcfg
  rw [hwins]
  unfold assignWindows
  have : (desiredConfig pct h w).pct = pct := rfl
  rw [if_pos]
  rw [this]
  exact hp

/-- C9 witness: starting from the fresh window state (`vd.windowConfig =
None`, line 44), applying the layout at `pct = 0` on a 24×80 terminal. -/
theorem C9_absent_secondary_witness :
    (setWindows ⟨none, ⟨.absent, .absent, .absent, .absent⟩⟩ false 0 24 80).1.wins.win2
      = .absent :=
  (C9_absent_secondary ⟨none, ⟨.absent, .absent, .absent, .absent⟩⟩ false 0 24 80
    (fun cfg hcfg => by simp at hcfg) (Or.inl rfl)).1

theorem Effects.empty_append (x : Effects) : Effects.empty.append x = x := by
  cases x
  simp [Effects.append, Effects.empty]

/-- The timeout adjustment touches only `numTimeouts` and `timeoutMs`. -/
theorem timeoutUpdate_prefixWaiting (env : Env) (st : VD) :
    (timeoutUpdate env st).prefixWaiting = st.prefixWaiting := by
  simp only [timeoutUpdate]
  split_ifs <;> rfl

theorem timeoutUpdate_keystrokes (env : Env) (st : VD) :
    (timeoutUpdate env st).keystrokes = st.keystrokes := by
  simp only [timeoutUpdate]
  split_ifs <;> rfl

theorem timeoutUpdate_statuses (env : Env) (st : VD) :
    (timeoutUpdate env st).statuses = st.statuses := by
  simp only [timeoutUpdate]
  split_ifs <;> rfl

theorem timeoutUpdate_lastErrors (env : Env) (st : VD) :
    (timeoutUpdate env st).lastErrors = st.lastErrors := by
  simp only [timeoutUpdate]
  split_ifs <;> rfl

theorem timeoutUpdate_nextCommands (env : Env) (st : VD) :
    (timeoutUpdate env st).nextCommands = st.nextCommands := by
  simp only [timeoutUpdate]
  split_ifs <;> rfl

/-- Characterization of the input half for an ordinary keystroke `k` (not
empty, not `KEY_MOUSE`) that does not trip the duplicate-prefix check: the
timeout counter resets, statuses clear, `k` is appended to the (possibly
cleared) pending sequence, and resolution runs on the result. -/
theorem mainloopInput_key (env : Env) (st : VD) (k : String)
    (hk : k ≠ "") (hm : k ≠ "KEY_MOUSE")
    (hdup : pyIn k ((keystrokesAfterClear st).dropRight 1) = false) :
    mainloopInput env st (.key k) =
      resolveKeystroke env
        { st with
            numTimeouts := 0
            statuses := []
            keystrokes := keystrokesAfterClear st ++ k } k Effects.empty := by
  unfold keystrokesAfterClear at *
  cases hpw : st.prefixWaiting <;> simp [hpw] at hdup <;>
    simp [mainloopInput, InputEvent.keystroke, InputEvent.mouseData, hpw, hk,
      hm, hdup, Effects.empty_append]

/-- Characterization of the input half for an ordinary keystroke that *does*
trip the duplicate-prefix check (line 205-207): a `duplicate prefix` warning
is emitted and the pending sequence resets to empty before resolution. -/
theorem mainloopInput_key_dup (env : Env) (st : VD) (k : String)
    (hk : k ≠ "") (hm : k ≠ "KEY_MOUSE")
    (hdup : pyIn k ((keystrokesAfterClear st).dropRight 1) = true) :
    mainloopInput env st (.key k) =
      resolveKeystroke env
        { st with
            numTimeouts := 0
            statuses := []
            keystrokes := "" } k
        { Effects.empty with warnings := ["duplicate prefix"] } := by
  unfold keystrokesAfterClear at *
  cases hpw : st.prefixWaiting <;> simp [hpw] at hdup <;>
    simp [mainloopInput, InputEvent.keystroke, InputEvent.mouseData, hpw, hk,
      hm, hdup, Effects.empty_append]

/-- C1 counterexample: with bindings `{a: CMD1, ab: CMD2}`, the claim says
feeding the single keystroke `a` followed by a timeout dispatches no command
and leaves `prefixWaiting = true`.  In the code the exact-match branch (line
217) precedes the prefix check (line 220), and `a` has an exact binding, so
`execCommand('a')` — CMD1 — runs immediately and `prefixWaiting` is `false`
after both iterations. -/
theorem C1_counterexample :
    envAB.bindkeysGet "a" = some "CMD1" ∧
    (runInputs envAB initVD [.key "a", .timeout]).2.map Effects.execs
      = [["a"], []] ∧
    (runInputs envAB initVD [.key "a", .timeout]).1.prefixWaiting = false := by
  decide

/-- C1 (amended): resolution order of the accumulated sequence against the
binding table, for an ordinary non-empty keystroke `k` (not `^Q`, not
`KEY_MOUSE`) that does not trip the duplicate-prefix check.  Writing `ks` for
the pending sequence after the start-of-keystroke clear and `ks ++ k` for
the accumulated sequence: (1) an exact binding for `ks ++ k` dispatches it
with `prefixWaiting = false` — exact match takes precedence over the prefix
check, so with bindings `{a: CMD1, ab: CMD2}` the keystroke `a` dispatches
CMD1 at once — and the pending sequence keeps the dispatched value until the
next keystroke clears it; (2) with no exact binding, a keystroke in the
supplied prefix set sets `prefixWaiting = true` and keeps accumulating;
(3) otherwise a `no command` status is reported with
`prefixWaiting = false`. -/
theorem C1_resolution (env : Env) (st : VD) (k : String)
    (hk : k ≠ "") (hm : k ≠ "KEY_MOUSE") (hq : k ≠ "^Q")
    (hdup : pyIn k ((keystrokesAfterClear st).dropRight 1) = false) :
    (∀ c, env.bindkeysGet (keystrokesAfterClear st ++ k) = some c →
      ∃ st2 eff, mainloopInput env st (.key k) = .next st2 eff ∧
        eff.execs = [keystrokesAfterClear st ++ k] ∧
        st2.prefixWaiting = false ∧
        st2.keystrokes = keystrokesAfterClear st ++ k) ∧
    (env.bindkeysGet (keystrokesAfterClear st ++ k) = none → k ∈ env.allPrefixes →
      ∃ st2 eff, mainloopInput env st (.key k) = .next st2 eff ∧
        eff.execs = [] ∧
        st2.prefixWaiting = true ∧
        st2.keystrokes = keystrokesAfterClear st ++ k) ∧
    (env.bindkeysGet (keystrokesAfterClear st ++ k) = none → k ∉ env.allPrefixes →
      ∃ st2 eff, mainloopInput env st (.key k) = .next st2 eff ∧
        eff.execs = [] ∧
        st2.prefixWaiting = false ∧
        st2.statuses =
          ["no command for \"" ++ (keystrokesAfterClear st ++ k) ++ "\""]) := by
  rw [mainloopInput_key env st k hk hm hdup]
  refine ⟨?_, ?_, ?_⟩
  · intro c hc
    unfold resolveKeystroke
    simp [hk, hq, hc, Effects.empty_append]
    exact ⟨_, _, ⟨rfl, rfl⟩, rfl, by simp [timeoutUpdate_prefixWaiting],
      by simp [timeoutUpdate_keystrokes]⟩
  · intro hc hpre
    unfold resolveKeystroke
    simp [hk, hq, hc, hpre, Effects.empty_append]
    exact ⟨_, _, ⟨rfl, rfl⟩, rfl, by simp [timeoutUpdate_prefixWaiting],
      by simp [timeoutUpdate_keystrokes]⟩
  · intro hc hpre
    unfold resolveKeystroke
    simp [hk, hq, hc, hpre, Effects.empty_append]
    exact ⟨_, _, ⟨rfl, rfl⟩, rfl, by simp [timeoutUpdate_prefixWaiting],
      by simp [timeoutUpdate_statuses]⟩

/-- C1 witness: the three branches of the amended resolution rule exercised
at concrete inputs in the `{a: CMD1, ab: CMD2}` environment. -/
theorem C1_resolution_witness :
    (∃ st2 eff, mainloopInput envAB initVD (.key "a") = .next st2 eff ∧
      eff.execs = ["a"] ∧ st2.prefixWaiting = false ∧ st2.keystrokes = "a") ∧
    (∃ st2 eff, mainloopInput envAB initVD (.key "x") = .next st2 eff ∧
      eff.execs = [] ∧ st2.prefixWaiting = false ∧
      st2.statuses = ["no command for \"x\""]) := by
  constructor
  · have h := (C1_resolution envAB initVD "a" (by decide) (by decide)
      (by decide) (by decide)).1 "CMD1" (by decide)
    simpa using h
  · have h := (C1_resolution envAB initVD "x" (by decide) (by decide)
      (by decide) (by decide)).2.2 (by decide) (by decide)
    simpa using h

/-- C2 counterexample: with bindings `{a: CMD1, ab: CMD2}`, the claim says
feeding `a` then `a` again emits a `duplicate prefix` warning, clears
pending, and dispatches neither command.  In the code the first `a` is an
exact match, so `prefixWaiting` stays `false`; the second iteration then
clears `self.keystrokes` *before* the duplicate test (line 158-159), the
test `'a' in ''[:-1]` fails, and CMD1 is dispatched a second time with no
warning at all. -/
theorem C2_counterexample :
    (runInputs envAB initVD [.key "a", .key "a"]).2.map Effects.execs
      = [["a"], ["a"]] ∧
    (runInputs envAB initVD [.key "a", .key "a"]).2.map Effects.warnings
      = [[], []] := by
  decide

/-- C2 (amended): the duplicate-prefix test compares the incoming keystroke
`k` against the pending sequence *as it stands after the start-of-keystroke
clear* — so it can only fire while `prefixWaiting` is true.  In that case,
when `k` occurs as a substring of the pending sequence with its last
character removed, a `duplicate prefix` warning is emitted, the pending
sequence resets to empty, and no command is dispatched provided the empty
sequence is unbound and `k` is not the quit keystroke.  With the example
bindings the duplicate branch is unreachable for `a` after `a`, because the
first `a` dispatches CMD1 and leaves `prefixWaiting = false`. -/
theorem C2_duplicate_warning (env : Env) (st : VD) (k : String)
    (hk : k ≠ "") (hm : k ≠ "KEY_MOUSE") (hq : k ≠ "^Q")
    (hpw : st.prefixWaiting = true)
    (hdup : pyIn k (st.keystrokes.dropRight 1) = true)
    (hempty : env.bindkeysGet "" = none) :
    ∃ st2 eff, mainloopInput env st (.key k) = .next st2 eff ∧
      eff.warnings = ["duplicate prefix"] ∧
      eff.execs = [] ∧
      st2.keystrokes = "" := by
  have hdup2 : pyIn k ((keystrokesAfterClear st).dropRight 1) = true := by
    simpa [keystrokesAfterClear, hpw] using hdup
  rw [mainloopInput_key_dup env st k hk hm hdup2]
  unfold resolveKeystroke
  simp [hk, hq, hempty]
  split_ifs with hpre
  · exact ⟨_, _, rfl, rfl, rfl, by simp [timeoutUpdate_keystrokes]⟩
  · exact ⟨_, _, rfl, rfl, rfl, by simp [timeoutUpdate_keystrokes]⟩

/-- C2 witness: the amended duplicate rule fired from a prefix-waiting state
with pending `"ab"` on receiving `a` (which occurs in `"ab"[:-1] = "a"`). -/
theorem C2_duplicate_warning_witness :
    ∃ st2 eff,
      mainloopInput envAB
        { initVD with prefixWaiting := true, keystrokes := "ab" } (.key "a")
        = .next st2 eff ∧
      eff.warnings = ["duplicate prefix"] ∧
      eff.execs = [] ∧
      st2.keystrokes = "" :=
  C2_duplicate_warning envAB
    { initVD with prefixWaiting := true, keystrokes := "ab" } "a"
    (by decide) (by decide) (by decide) (by decide) (by decide) (by decide)

/-- Characterization of the input half for a pure timeout (lines 153-154 and
213-214): when a prefix is pending and the pending sequence *contains* the
escape token, `self.keystrokes` is cleared; nothing else changes except the
timeout bookkeeping. -/
theorem mainloopInput_timeout (env : Env) (st : VD) :
    mainloopInput env st .timeout =
      .next (timeoutUpdate env
        (if st.prefixWaiting = true ∧ pyIn ESC st.keystrokes = true
         then { st with keystrokes := "" } else st)) Effects.empty := by
  simp [mainloopInput, InputEvent.keystroke, resolveKeystroke]

/-- C8 counterexample: the claim clears pending on timeout only when the
pending sequence *ends in* an escape token.  The code tests containment
(`ESC in self.keystrokes`, line 153): from the prefix-waiting state with
pending `"^[g"` — which contains the escape token but ends in `g` — a pure
timeout clears pending, so "a pure timeout under any other condition leaves
the pending sequence unchanged" is false. -/
theorem C8_counterexample :
    endsIn ESC "^[g" = false ∧
    pyIn ESC "^[g" = true ∧
    ((mainloopInput envAB
        { initVD with prefixWaiting := true, keystrokes := "^[g" }
        .timeout).nextState.map VD.keystrokes) = some "" := by
  decide

/-- C8 (amended): on a pure timeout the pending sequence is cleared exactly
when `prefixWaiting` is true and the pending sequence *contains* the escape
token anywhere (not only as a suffix); under any other condition the pending
sequence, `prefixWaiting`, and the statuses are unchanged, and no command is
dispatched and no warning emitted. -/
theorem C8_escape_timeout (env : Env) (st : VD) :
    ∃ st2 eff, mainloopInput env st .timeout = .next st2 eff ∧
      eff.execs = [] ∧
      eff.warnings = [] ∧
      st2.keystrokes =
        (if st.prefixWaiting = true ∧ pyIn ESC st.keystrokes = true then ""
         else st.keystrokes) ∧
      st2.prefixWaiting = st.prefixWaiting ∧
      st2.statuses = st.statuses := by
  rw [mainloopInput_timeout]
  refine ⟨_, _, rfl, rfl, rfl, ?_, ?_, ?_⟩
  · split <;> simp [timeoutUpdate_keystrokes]
  · split <;> simp [timeoutUpdate_prefixWaiting]
  · split <;> simp [timeoutUpdate_statuses]

/-- Python's `'' in s` is true for every string `s`. -/
theorem pyIn_empty (s : String) : pyIn "" s = true :=
  decide_eq_true List.nil_infix

/-- C10: after a mouse event whose composed token resolves to a bound mouse
handler, the handler is invoked (the bound command words are executed, or
the bound callable is called as `f(y, x, keystroke)`), the local `keystroke`
variable becomes the empty string, and — because `'' in s[:-1]` holds for
every Python string — the duplicate-prefix test (line 205) always fires:
a `duplicate prefix` warning is emitted and `self.keystrokes` is empty when
the binding-table resolution step is reached (which is then skipped, the
keystroke being empty, so no keyboard command dispatches on top of the
handler). -/
theorem C10_mouse_dup_warning (env : Env) (st : VD) (m : MouseData)
    (herr : m.cursesErr = false)
    (hcfg : st.winState.windowConfig.isSome = true) :
    (∀ cs, env.getMouse (mouseKeystroke env m) = .cmds cs →
      ∃ st2 eff, mainloopInput env st (.mouse m) = .next st2 eff ∧
        eff.execs = cs ∧
        eff.warnings = ["duplicate prefix"] ∧
        st2.keystrokes = "") ∧
    (env.getMouse (mouseKeystroke env m) = .fn →
      ∃ st2 eff, mainloopInput env st (.mouse m) = .next st2 eff ∧
        eff.mouseFnCalls = [(m.y, m.x, mouseKeystroke env m)] ∧
        eff.execs = [] ∧
        eff.warnings = ["duplicate prefix"] ∧
        st2.keystrokes = "") := by
  obtain ⟨cfg, hcfg⟩ := Option.isSome_iff_exists.mp hcfg
  constructor
  · intro cs hcs
    cases hpw : st.prefixWaiting <;>
      simp [mainloopInput, InputEvent.keystroke, InputEvent.mouseData,
        handleMouse, resolveKeystroke, herr, hcfg, hcs, hpw, pyIn_empty,
        Effects.append, Effects.empty] <;>
      exact ⟨_, _, ⟨rfl, rfl⟩, rfl, rfl, by simp [timeoutUpdate_keystrokes]⟩
  · intro hcs
    cases hpw : st.prefixWaiting <;>
      simp [mainloopInput, InputEvent.keystroke, InputEvent.mouseData,
        handleMouse, resolveKeystroke, herr, hcfg, hcs, hpw, pyIn_empty,
        Effects.append, Effects.empty] <;>
      exact ⟨_, _, ⟨rfl, rfl⟩, rfl, rfl, rfl, by simp [timeoutUpdate_keystrokes]⟩

/-- C10 witness: an unmodified button-1 click at (x, y) = (3, 5) dispatches
the bound `open-row` command, emits the `duplicate prefix` warning, and
leaves the pending sequence empty. -/
theorem C10_mouse_dup_warning_witness :
    ∃ st2 eff,
      mainloopInput envMouse stMouse
          (.mouse ⟨3, 5, false, false, false, 4, false⟩) = .next st2 eff ∧
        eff.execs = ["open-row"] ∧
        eff.warnings = ["duplicate prefix"] ∧
        st2.keystrokes = "" := by
  have h := (C10_mouse_dup_warning envMouse stMouse
    ⟨3, 5, false, false, false, 4, false⟩ rfl (by decide)).1
    ["open-row"] (by decide)
  simpa using h

theorem setWindowsVD_nextCommands (env : Env) (st : VD) :
    (setWindowsVD env st).1.nextCommands = st.nextCommands := rfl

theorem setWindowsVD_execs (env : Env) (st : VD) :
    (setWindowsVD env st).2.execs = [] := rfl

theorem setWindowsVD_readInput (env : Env) (st : VD) :
    (setWindowsVD env st).2.readInput = false := rfl

theorem draw_all_nextCommands (env : Env) (st : VD) :
    (draw_all env st).1.nextCommands = st.nextCommands := by
  unfold draw_all
  rcases env.ss1 with _ | ⟨s1, t1⟩ <;> rcases env.ss2 with _ | ⟨s2, t2⟩ <;>
    simp [setWindowsVD, draw_sheet] <;> split_ifs <;> rfl

theorem draw_all_execs (env : Env) (st : VD) :
    (draw_all env st).2.execs = [] := by
  unfold draw_all
  rcases env.ss1 with _ | ⟨s1, t1⟩ <;> rcases env.ss2 with _ | ⟨s2, t2⟩ <;>
    simp [setWindowsVD, draw_sheet, Effects.append, Effects.empty] <;>
    split_ifs <;> rfl

theorem draw_all_readInput (env : Env) (st : VD) :
    (draw_all env st).2.readInput = false := by
  unfold draw_all
  rcases env.ss1 with _ | ⟨s1, t1⟩ <;> rcases env.ss2 with _ | ⟨s2, t2⟩ <;>
    simp [setWindowsVD, draw_sheet, Effects.append, Effects.empty] <;>
    split_ifs <;> rfl

theorem activeSheet_isSome (env : Env) (st : VD) (hss : env.ss1 ≠ []) :
    ∃ s, activeSheet env st = some s := by
  unfold activeSheet
  rcases h1 : env.ss1 with _ | ⟨a, t⟩
  · exact absurd h1 hss
  · by_cases hap : st.activePane = 2
    · rcases h2 : env.ss2 with _ | ⟨b, t2⟩ <;> simp [hap, h1, h2]
    · simp [hap, h1]

/-- C5: in every iteration whose replay queue (`vd._nextCommands`) is
non-empty, the pre-input phase removes exactly the front entry, executes it,
and skips the live input read entirely (`continue` at line 149); no step
from such a state reads a keystroke. -/
theorem C5_replay_priority (env : Env) (st : VD) (c : String) (cs : List String)
    (hss : env.ss1 ≠ []) (hnc : st.nextCommands = c :: cs) :
    (∃ st2 eff, mainloopPre env st = .replayed st2 eff ∧
      st2.nextCommands = cs ∧ eff.execs = [c] ∧ eff.readInput = false) ∧
    (∀ input st2 eff, mainloopStep env st input = .next st2 eff →
      eff.readInput = false) := by
  have hpre : ∃ st2 eff, mainloopPre env st = .replayed st2 eff ∧
      st2.nextCommands = cs ∧ eff.execs = [c] ∧ eff.readInput = false := by
    obtain ⟨s, hs⟩ := activeSheet_isSome env st hss
    unfold mainloopPre
    rw [if_neg (by simp [hss])]
    rw [hs]
    have hrw : (draw_all env (setWindowsVD env st).1).1.nextCommands = c :: cs := by
      rw [draw_all_nextCommands, setWindowsVD_nextCommands, hnc]
    simp only [hrw]
    refine ⟨_, _, rfl, rfl, ?_, ?_⟩
    · simp [Effects.append, Effects.empty, setWindowsVD_execs, draw_all_execs]
    · simp [Effects.append, Effects.empty, setWindowsVD_readInput,
        draw_all_readInput]
  refine ⟨hpre, ?_⟩
  obtain ⟨st2, eff, heq, _, _, hri⟩ := hpre
  intro input st3 eff2 hstep
  unfold mainloopStep at hstep
  rw [heq] at hstep
  simp only [StepResult.next.injEq] at hstep
  rw [← hstep.2]
  exact hri

/-- C5 witness: a queued replay command `open-row` in the standard
environment is drained and executed without reading input. -/
theorem C5_replay_priority_witness :
    ∃ st2 eff,
      mainloopPre envAB { initVD with nextCommands := ["open-row"] }
        = .replayed st2 eff ∧
      st2.nextCommands = [] ∧ eff.execs = ["open-row"] ∧
      eff.readInput = false :=
  (C5_replay_priority envAB { initVD with nextCommands := ["open-row"] }
    "open-row" [] (by decide) rfl).1

/-- C7: at the start of a redraw (`draw_all`), if exactly one pane's stack is
non-empty that pane becomes the active pane, the split percentage is forced
to 0 for the frame (so the secondary window is the absent handle — the empty
pane shows nothing, and only the non-empty pane's top sheet is drawn); if
both stacks are non-empty the previously active pane remains active.  The
consistency hypothesis ties the stored window handles to the stored config
(true initially and preserved by every `setWindows`). -/
theorem C7_pane_collapse (env : Env) (st : VD) (hc : st.winState.consistent) :
    (∀ s1 t1, env.ss1 = s1 :: t1 → env.ss2 = [] →
      (draw_all env st).1.activePane = 1 ∧
      (draw_all env st).1.disp_splitwin_pct = 0 ∧
      (draw_all env st).2.draws.map Prod.snd = [s1] ∧
      (draw_all env st).1.winState.wins.win2 = .absent) ∧
    (∀ s2 t2, env.ss1 = [] → env.ss2 = s2 :: t2 →
      (draw_all env st).1.activePane = 2 ∧
      (draw_all env st).1.disp_splitwin_pct = 0 ∧
      (draw_all env st).2.draws.map Prod.snd = [s2] ∧
      (draw_all env st).1.winState.wins.win2 = .absent) ∧
    (env.ss1 ≠ [] → env.ss2 ≠ [] →
      (draw_all env st).1.activePane = st.activePane) := by
  have hw2 : (setWindows st.winState false 0 env.h env.w).1.wins.win2
      = .absent := by
    have hcfg := setWindows_config st.winState false 0 env.h env.w
    have hcons := setWindows_consistent st.winState false 0 env.h env.w hc
    rw [hcons _ hcfg]
    simp [assignWindows, desiredConfig]
  refine ⟨?_, ?_, ?_⟩
  · intro s1 t1 h1 h2
    unfold draw_all
    simp only [h1, h2]
    simp [setWindowsVD, draw_sheet, Effects.append, Effects.empty, hw2,
      WinHandle.toBool]
  · intro s2 t2 h1 h2
    unfold draw_all
    simp only [h1, h2]
    simp [setWindowsVD, draw_sheet, Effects.append, Effects.empty, hw2,
      WinHandle.toBool]
  · intro h1 h2
    unfold draw_all
    rcases hs1 : env.ss1 with _ | ⟨s1, t1⟩
    · exact absurd hs1 h1
    · rcases hs2 : env.ss2 with _ | ⟨s2, t2⟩
      · exact absurd hs2 h2
      · split_ifs <;> simp [setWindowsVD, draw_sheet]

/-- C7 witness: the single-stack collapse exercised in the one-sheet
environment starting from the fresh window state. -/
theorem C7_pane_collapse_witness :
    (draw_all envAB initVD).1.activePane = 1 ∧
    (draw_all envAB initVD).1.disp_splitwin_pct = 0 ∧
    (draw_all envAB initVD).2.draws.map Prod.snd = [0] ∧
    (draw_all envAB initVD).1.winState.wins.win2 = .absent :=
  (C7_pane_collapse envAB initVD (fun cfg hcfg => by simp [initVD] at hcfg)).1
    0 [] rfl rfl

theorem setWindowsVD_draws (env : Env) (st : VD) :
    (setWindowsVD env st).2.draws = [] := rfl

theorem draw_all_draws_ne (env : Env) (st : VD) (hss : env.ss1 ≠ []) :
    (draw_all env st).2.draws ≠ [] := by
  unfold draw_all
  rcases h1 : env.ss1 with _ | ⟨s1, t1⟩
  · exact absurd h1 hss
  · rcases h2 : env.ss2 with _ | ⟨s2, t2⟩
    · simp [setWindowsVD, draw_sheet, Effects.append, Effects.empty]
    · split_ifs <;> simp [setWindowsVD, draw_sheet, Effects.append,
        Effects.empty]

/-- When sheets are stacked and the replay queue is empty, the pre-input
phase redraws (at least one `draw_sheet` call) and proceeds to the live
input read. -/
theorem mainloopPre_needInput (env : Env) (st : VD)
    (hss : env.ss1 ≠ []) (hnc : st.nextCommands = []) :
    ∃ st1 eff, mainloopPre env st = .needInput st1 eff ∧ eff.draws ≠ [] := by
  obtain ⟨s, hs⟩ := activeSheet_isSome env st hss
  unfold mainloopPre
  rw [if_neg (by simp [hss]), hs]
  have hrw : (draw_all env (setWindowsVD env st).1).1.nextCommands = [] := by
    rw [draw_all_nextCommands, setWindowsVD_nextCommands, hnc]
  simp only [hrw]
  refine ⟨_, _, rfl, ?_⟩
  have hne := draw_all_draws_ne env (setWindowsVD env st).1 hss
  simp [Effects.append, setWindowsVD_draws, hne]

/-- C6: error containment at the scheduler boundary.  (1) An exception
raised by the external `sheet.draw` during `draw_sheet` is caught (lines
36-39), recorded into the bounded error history, and the window is still
refreshed — `draw_sheet` returns normally.  (2) A dispatched bound command
that raises has its exception recorded in the error history, the iteration
completes normally (the step is `next`, not a propagated failure — the
whole embedding of the iteration is a total function), and the following
iteration's pre-input phase still redraws and reaches the live input
read. -/
theorem C6_error_containment (env : Env) (st : VD) :
    (∀ (win : WinHandle) (s : Nat) (errs : List String) (e : String),
      env.drawExc s = some e →
        (draw_sheet env win s errs).1 = exceptionCaught errs e ∧
        e ∈ (draw_sheet env win s errs).1 ∧
        (draw_sheet env win s errs).2.refreshes = [win]) ∧
    (∀ k c e, k ≠ "" → k ≠ "KEY_MOUSE" → k ≠ "^Q" →
      pyIn k ((keystrokesAfterClear st).dropRight 1) = false →
      env.bindkeysGet (keystrokesAfterClear st ++ k) = some c →
      env.execExc (keystrokesAfterClear st ++ k) = some e →
      st.nextCommands = [] →
      env.ss1 ≠ [] →
      ∃ st2 eff, mainloopInput env st (.key k) = .next st2 eff ∧
        e ∈ st2.lastErrors ∧
        ∃ st3 eff2, mainloopPre env st2 = .needInput st3 eff2 ∧
          eff2.draws ≠ []) := by
  constructor
  · intro win s errs e he
    refine ⟨?_, ?_, rfl⟩
    · simp [draw_sheet, he]
    · simp only [draw_sheet, he]
      exact mem_exceptionCaught errs e
  · intro k c e hk hm hq hdup hc hexc hnc hss
    rw [mainloopInput_key env st k hk hm hdup]
    unfold resolveKeystroke
    simp only [if_neg hk, if_neg hq]
    rw [if_pos (by simp [hc])]
    refine ⟨_, _, rfl, ?_, ?_⟩
    · rw [timeoutUpdate_lastErrors]
      simp only [hexc, execCommand]
      exact mem_exceptionCaught st.lastErrors e
    · apply mainloopPre_needInput env _ hss
      rw [timeoutUpdate_nextCommands]
      exact hnc

/-- C6 witness: both containment clauses exercised concretely — a sheet
whose draw raises `draw-fail`, and the `a`-bound command raising `boom`. -/
theorem C6_error_containment_witness :
    ((draw_sheet { envRaise with drawExc := fun _ => some "draw-fail" }
        (.real 24 80 0 0) 0 []).1 = ["draw-fail"] ∧
      "draw-fail" ∈ (draw_sheet { envRaise with drawExc := fun _ => some "draw-fail" }
        (.real 24 80 0 0) 0 []).1) ∧
    ∃ st2 eff, mainloopInput envRaise initVD (.key "a") = .next st2 eff ∧
      "boom" ∈ st2.lastErrors := by
  constructor
  · have h := (C6_error_containment
      { envRaise with drawExc := fun _ => some "draw-fail" } initVD).1
      (.real 24 80 0 0) 0 [] "draw-fail" rfl
    exact ⟨by simpa [exceptionCaught] using h.1, h.2.1⟩
  · obtain ⟨st2, eff, heq, hmem, _⟩ :=
      (C6_error_containment envRaise initVD).2 "a" "CMD1" "boom"
        (by decide) (by decide) (by decide) (by decide) (by decide)
        (by decide) rfl (by decide)
    exact ⟨st2, eff, heq, hmem⟩

theorem setWindowsVD_numTimeouts (env : Env) (st : VD) :
    (setWindowsVD env st).1.numTimeouts = st.numTimeouts := rfl

theorem draw_all_numTimeouts (env : Env) (st : VD) :
    (draw_all env st).1.numTimeouts = st.numTimeouts := by
  unfold draw_all
  rcases env.ss1 with _ | ⟨s1, t1⟩ <;> rcases env.ss2 with _ | ⟨s2, t2⟩ <;>
    simp [setWindowsVD, draw_sheet] <;> split_ifs <;> rfl

theorem timeoutUpdate_numTimeouts (env : Env) (st : VD)
    (hb : env.unfinishedThreads = false) :
    (timeoutUpdate env st).numTimeouts = st.numTimeouts + 1 := by
  simp only [timeoutUpdate, hb, Bool.false_eq_true, if_false]
  split_ifs <;> rfl

theorem timeoutUpdate_timeoutMs_idle (env : Env) (st : VD)
    (hb : env.unfinishedThreads = false) :
    (timeoutUpdate env st).timeoutMs =
      if 0 ≤ env.timeouts_before_idle ∧
          ((st.numTimeouts + 1 : Nat) : Int) > env.timeouts_before_idle
      then -1 else curses_timeout := by
  simp only [timeoutUpdate, hb, Bool.false_eq_true, if_false]
  split_ifs <;> rfl

theorem timeoutUpdate_busy (env : Env) (st : VD)
    (hb : env.unfinishedThreads = true) :
    (timeoutUpdate env st).timeoutMs = curses_timeout ∧
    (timeoutUpdate env st).numTimeouts = st.numTimeouts := by
  simp [timeoutUpdate, hb]

/-- Every non-returning branch of the resolution tail ends in the timeout
adjustment, so any `next` outcome carries a `timeoutUpdate`d state. -/
theorem resolveKeystroke_next_busy (env : Env) (st : VD) (k : String)
    (eff : Effects) (st2 : VD) (eff2 : Effects)
    (hb : env.unfinishedThreads = true)
    (h : resolveKeystroke env st k eff = .next st2 eff2) :
    st2.timeoutMs = curses_timeout := by
  unfold resolveKeystroke at h
  split_ifs at h <;> simp only [StepResult.next.injEq] at h <;>
    rw [← h.1] <;> exact (timeoutUpdate_busy env _ hb).1

/-- The input half always terminates in the resolution tail. -/
theorem mainloopInput_is_resolve (env : Env) (st : VD) (input : InputEvent) :
    ∃ st1 k eff, mainloopInput env st input = resolveKeystroke env st1 k eff := by
  simp only [mainloopInput]
  split_ifs <;> exact ⟨_, _, _, rfl⟩

/-- The pre-input phase, written as an equation, when sheets are stacked and
the replay queue is empty. -/
theorem mainloopPre_needInput_eq (env : Env) (st : VD)
    (hss : env.ss1 ≠ []) (hnc : st.nextCommands = []) :
    mainloopPre env st =
      .needInput (draw_all env (setWindowsVD env st).1).1
        ((setWindowsVD env st).2.append
          (draw_all env (setWindowsVD env st).1).2) := by
  obtain ⟨s, hs⟩ := activeSheet_isSome env st hss
  unfold mainloopPre
  rw [if_neg (by simp [hss]), hs]
  have hrw : (draw_all env (setWindowsVD env st).1).1.nextCommands = [] := by
    rw [draw_all_nextCommands, setWindowsVD_nextCommands, hnc]
  simp only [hrw]

/-- Counter accounting for a run of consecutive pure-timeout iterations in
the idle one-sheet environment: each iteration increments `numTimeouts` by
one, and the final poll timeout is `-1` exactly when the threshold is
non-negative and the counter has exceeded it. -/
theorem runTimeouts_accounting (T : Int) (i : Nat) :
    ∀ st : VD, st.nextCommands = [] →
    (runInputs (envIdle T) st (List.replicate i .timeout)).1.numTimeouts
        = st.numTimeouts + i ∧
    (runInputs (envIdle T) st (List.replicate i .timeout)).1.nextCommands
        = [] ∧
    (runInputs (envIdle T) st (List.replicate i .timeout)).1.timeoutMs
        = (if i = 0 then st.timeoutMs
           else if 0 ≤ T ∧ ((st.numTimeouts + i : Nat) : Int) > T then -1
           else curses_timeout) := by
  induction i with
  | zero => intro st hnc; simp [runInputs, hnc]
  | succ i ih =>
    intro st hnc
    have hss : (envIdle T).ss1 ≠ [] := by simp [envIdle, envAB]
    have hb : (envIdle T).unfinishedThreads = false := rfl
    have hTi : (envIdle T).timeouts_before_idle = T := rfl
    have hpre := mainloopPre_needInput_eq (envIdle T) st hss hnc
    rw [List.replicate_succ]
    simp only [runInputs, mainloopStep, hpre, mainloopInput_timeout]
    have h1num : (draw_all (envIdle T) (setWindowsVD (envIdle T) st).1).1.numTimeouts
        = st.numTimeouts := by
      rw [draw_all_numTimeouts, setWindowsVD_numTimeouts]
    have h1nc : (draw_all (envIdle T) (setWindowsVD (envIdle T) st).1).1.nextCommands
        = [] := by
      rw [draw_all_nextCommands, setWindowsVD_nextCommands, hnc]
    set st1 := (draw_all (envIdle T) (setWindowsVD (envIdle T) st).1).1 with hst1
    set stE := (if st1.prefixWaiting = true ∧ pyIn ESC st1.keystrokes = true
      then { st1 with keystrokes := "" } else st1) with hstE
    have hEnum : stE.numTimeouts = st.numTimeouts := by
      rw [hstE]; split <;> simpa using h1num
    have hEnc : stE.nextCommands = [] := by
      rw [hstE]; split <;> simpa using h1nc
    set st2 := timeoutUpdate (envIdle T) stE with hst2
    have h2num : st2.numTimeouts = st.numTimeouts + 1 := by
      rw [hst2, timeoutUpdate_numTimeouts _ _ hb, hEnum]
    have h2nc : st2.nextCommands = [] := by
      rw [hst2, timeoutUpdate_nextCommands, hEnc]
    have h2tm : st2.timeoutMs =
        (if 0 ≤ T ∧ ((st.numTimeouts + 1 : Nat) : Int) > T then -1
         else curses_timeout) := by
      rw [hst2, timeoutUpdate_timeoutMs_idle _ _ hb, hTi, hEnum]
    obtain ⟨ihn, ihc, iht⟩ := ih st2 h2nc
    refine ⟨?_, ?_, ?_⟩
    · rw [ihn, h2num]; omega
    · exact ihc
    · rw [iht, h2num]
      rcases Nat.eq_zero_or_pos i with hi | hi
      · subst hi
        simp only [if_pos rfl]
        rw [h2tm]
        simp
      · simp only [if_neg (show ¬i = 0 by omega),
          if_neg (show ¬i + 1 = 0 by omega)]
        have hcond : (0 ≤ T ∧ ((st.numTimeouts + 1 + i : Nat) : Int) > T) ↔
            (0 ≤ T ∧ ((st.numTimeouts + (i + 1) : Nat) : Int) > T) := by
          constructor <;> intro ⟨hT2, hgt⟩ <;> refine ⟨hT2, ?_⟩ <;>
            push_cast at hgt ⊢ <;> omega
        rw [if_congr hcond rfl rfl]

/-- C3 counterexample: with threshold `T = 1`, no background tasks, and the
sequence keystroke-then-timeout, the loop blocks indefinitely after only one
consecutive no-event iteration — not `T + 1 = 2` as the claim requires after
the keystroke "resets the counter to zero".  The keystroke iteration itself
increments the counter to 1 at its end (line 234 runs even on keystroke
iterations), so only `T` further no-event iterations are needed. -/
theorem C3_counterexample :
    (envIdle 1).timeouts_before_idle = 1 ∧
    (envIdle 1).unfinishedThreads = false ∧
    (runInputs (envIdle 1) initVD [.key "x"]).1.timeoutMs
      = curses_timeout ∧
    (runInputs (envIdle 1) initVD [.key "x", .timeout]).1.timeoutMs = -1 := by
  decide

/-- C3 (amended): (1) while any background task is outstanding, every
iteration that reaches the input half ends with the short fixed poll timeout;
(2) from loop start with idle threshold `T ≥ 0`, the poll switches to
indefinite blocking (`timeout(-1)`) after exactly `T + 1` consecutive
no-event iterations; (3) a keystroke sets `numTimeouts = 0` mid-iteration,
but the end-of-iteration bookkeeping increments it, so the keystroke
iteration ends with counter 1 — it counts as the first iteration of the idle
run, and only `T` further no-event iterations reach indefinite blocking
after a keystroke (not `T + 1`). -/
theorem C3_adaptive_polling (T : Int) (i : Nat) (hT : 0 ≤ T) :
    (∀ (env : Env) (st : VD) (input : InputEvent) (st2 : VD) (eff : Effects),
      env.unfinishedThreads = true →
      mainloopInput env st input = .next st2 eff →
      st2.timeoutMs = curses_timeout) ∧
    ((runInputs (envIdle T) initVD (List.replicate i .timeout)).1.timeoutMs
      = if (i : Int) > T then -1 else curses_timeout) ∧
    (∀ (st : VD) (k : String) (st2 : VD) (eff : Effects),
      k ≠ "" → k ≠ "KEY_MOUSE" → k ≠ "^Q" →
      mainloopInput (envIdle T) st (.key k) = .next st2 eff →
      st2.numTimeouts = 1) := by
  refine ⟨?_, ?_, ?_⟩
  · intro env st input st2 eff hb h
    obtain ⟨st1, k, eff1, hres⟩ := mainloopInput_is_resolve env st input
    rw [hres] at h
    exact resolveKeystroke_next_busy env st1 k eff1 st2 eff hb h
  · obtain ⟨hn, _, ht⟩ := runTimeouts_accounting T i initVD rfl
    rw [ht]
    rcases Nat.eq_zero_or_pos i with hi | hi
    · subst hi
      rw [if_pos rfl, if_neg (show ¬((0 : Nat) : Int) > T by push_cast; omega)]
      rfl
    · rw [if_neg (by omega)]
      have : (0 ≤ T ∧ ((initVD.numTimeouts + i : Nat) : Int) > T) ↔
          ((i : Int) > T) := by
        constructor
        · intro ⟨_, hgt⟩
          simpa [initVD] using hgt
        · intro hgt
          exact ⟨hT, by simpa [initVD] using hgt⟩
      rw [if_congr this rfl rfl]
  · intro st k st2 eff hk hm hq h
    have hb : (envIdle T).unfinishedThreads = false := rfl
    cases hd : pyIn k ((keystrokesAfterClear st).dropRight 1) with
    | false =>
        rw [mainloopInput_key _ _ _ hk hm hd] at h
        unfold resolveKeystroke at h
        split_ifs at h <;> simp only [StepResult.next.injEq] at h <;>
          rw [← h.1] <;> rw [timeoutUpdate_numTimeouts _ _ hb]
    | true =>
        rw [mainloopInput_key_dup _ _ _ hk hm hd] at h
        unfold resolveKeystroke at h
        split_ifs at h <;> simp only [StepResult.next.injEq] at h <;>
          rw [← h.1] <;> rw [timeoutUpdate_numTimeouts _ _ hb]

/-- C3 witness: the amended polling rules evaluated concretely at `T = 2`:
three consecutive no-event iterations from loop start block indefinitely,
two do not; and a keystroke iteration ends with counter 1. -/
theorem C3_adaptive_polling_witness :
    (runInputs (envIdle 2) initVD
      (List.replicate 3 InputEvent.timeout)).1.timeoutMs = -1 ∧
    (runInputs (envIdle 2) initVD
      (List.replicate 2 InputEvent.timeout)).1.timeoutMs = curses_timeout := by
  have h3 := (C3_adaptive_polling 2 3 (by decide)).2.1
  have h2 := (C3_adaptive_polling 2 2 (by decide)).2.1
  constructor
  · rw [h3, if_pos (by decide)]
  · rw [h2, if_neg (by decide)]

end VisiDataMain
